import Mathlib

/-!
Shallow embedding of the persistence / interchange layer of the elodin ECS
(`src/libs/nox-ecs/src/polars.rs`): conversion of an in-memory archetype
world to and from an external (polars/arrow) columnar representation and a
directory snapshot, plus the read-only column adapter.

Machine integers are modelled as `Nat` with explicit bounds where overflow
matters (component ids are `u64`, so parses check `< 2 ^ 64`).  Fallible Rust
code returns a `RustResult`, which distinguishes `Ok`, `Err` and abnormal
termination (`panic!` / `todo!` / `.unwrap()` on an error).
-/

namespace Elodin

/-- Result of running a Rust function: normal return, returned error, or
abnormal termination (panic, including `todo!()` and `.unwrap()` failures). -/
inductive RustResult (ε α : Type) where
  | ok (a : α)
  | err (e : ε)
  | panic
deriving DecidableEq, Repr

def RustResult.bind : RustResult ε α → (α → RustResult ε β) → RustResult ε β
  | .ok a, f => f a
  | .err e, _ => .err e
  | .panic, _ => .panic

instance : Monad (RustResult ε) where
  pure := RustResult.ok
  bind := RustResult.bind

/-- Effectful `collect::<Result<_, _>>()` over a list: stops at the first
error (or panic), otherwise returns the list of results in order. -/
def mapME (f : α → RustResult ε β) : List α → RustResult ε (List β)
  | [] => .ok []
  | a :: as => (f a).bind fun b => (mapME f as).bind fun bs => .ok (b :: bs)

/-- Primitive kinds of `conduit::PrimitiveTy` (referenced from
`polars.rs`; the enum itself lives in the `conduit` crate). -/
inductive PrimitiveTy where
  | u8 | u16 | u32 | u64 | i8 | i16 | i32 | i64 | f32 | f64 | bool
deriving DecidableEq, Repr

/-- Byte width of one element of each primitive kind. -/
def elemSize : PrimitiveTy → Nat
  | .u8 => 1 | .u16 => 2 | .u32 => 4 | .u64 => 8
  | .i8 => 1 | .i16 => 2 | .i32 => 4 | .i64 => 8
  | .f32 => 4 | .f64 => 8 | .bool => 1

theorem elemSize_pos (ty : PrimitiveTy) : 0 < elemSize ty := by
  cases ty <;> simp [elemSize]

/-- Modelled from the spec: `conduit::ComponentType` is a primitive kind plus
an ordered shape (`{primitive kind, shape}`, §3); empty shape = scalar. -/
structure ComponentType where
  primitive_ty : PrimitiveTy
  shape : List Nat
deriving DecidableEq, Repr

/-- Modelled from the spec: `ComponentType::u64()` (used for the entity-id
column in `Table::from_dataframe`) is the scalar u64 component type. -/
def ComponentType.u64 : ComponentType := ⟨.u64, []⟩

/-! Decimal strings.  `polars.rs` names every value column by the decimal
string of its `ComponentId` (`self.component_id.0.to_string()`) and parses it
back with Rust's `str::parse::<u64>` — optional leading `+`, then one or more
ASCII digits, whole string consumed, value below `2 ^ 64`. -/

def digitChar (d : Nat) : Char := Char.ofNat (48 + d)

/-- Little-endian decimal digit characters of `n`, with an explicit fuel
bound (the value shrinks by a factor of ten each step, so any fuel above `n`
is enough; structural recursion on the fuel keeps the function reducible). -/
def toDigitsRevCore : Nat → Nat → List Char
  | 0, _ => []
  | fuel + 1, n =>
      if n < 10 then [digitChar n]
      else digitChar (n % 10) :: toDigitsRevCore fuel (n / 10)

/-- Little-endian list of decimal digit characters of `n` (model of Rust's
`u64::to_string`, before the final reversal). -/
def toDigitsRev (n : Nat) : List Char := toDigitsRevCore (n + 1) n

/-- Model of Rust's `u64::to_string` / `Display`: decimal representation. -/
def decimalString (n : Nat) : String := ⟨(toDigitsRev n).reverse⟩

/-- Left-to-right accumulation of decimal digits; fails on any non-digit. -/
def parseNatCore : List Char → Nat → Option Nat
  | [], acc => some acc
  | c :: cs, acc =>
      if c.isDigit then parseNatCore cs (acc * 10 + (c.toNat - 48)) else none

/-- Rust allows one optional leading `+` when parsing unsigned integers. -/
def stripPlus : List Char → List Char
  | '+' :: rest => rest
  | cs => cs

/-- Model of Rust's `str::parse::<u64>`: optional `+`, then a non-empty run
of ASCII digits consuming the whole string, with the value below `2 ^ 64`
(Rust reports overflow as an error; since there is no wrap-around, checking
the final value is equivalent). -/
def parseU64 (s : String) : Option Nat :=
  match stripPlus s.data with
  | [] => none
  | ds => (parseNatCore ds 0).bind fun n => if n < 2 ^ 64 then some n else none

/-- Modelled from the spec: `conduit::ComponentId::new` (not under `src/`)
hashes a component name to an opaque fixed 64-bit id (§3: "opaque 64-bit
identifier"); we model it as the standard FNV-1a-64 const hash.  Only the
facts that it is a fixed value below `2 ^ 64` matter to the theorems. -/
def ComponentId.new (s : String) : Nat :=
  s.data.foldl (fun h c => ((h ^^^ c.toNat) * 1099511628211) % 2 ^ 64)
    (14695981039346656037 % 2 ^ 64)

/-- The reserved entity-id sentinel
(`const ENTITY_ID_COMPONENT: ComponentId = ComponentId::new("entity_id")`). -/
def ENTITY_ID_COMPONENT : Nat := ComponentId.new "entity_id"

/-- The reserved column name: `ENTITY_ID_COMPONENT.0.to_string()`. -/
def entityIdString : String := decimalString ENTITY_ID_COMPONENT

/-! Arrow arrays.  `to_series` only ever builds two array shapes: a flat
primitive array over the column's raw byte buffer (`prim_array`, which
reinterprets the byte buffer as typed elements) and, for tensor columns, a
fixed-size-list wrapper around it (`tensor_array`).  We keep the element
bytes raw, which is exactly what `SeriesExt::to_bytes` observes. -/

inductive ArrowArray where
  | primitive (ty : PrimitiveTy) (values : List Nat)
  | fixedSizeList (width : Nat) (inner : ArrowArray)
deriving DecidableEq, Repr

/-- Logical length of an array: a primitive array over a value buffer of
`k × elemSize` bytes has `k` elements; a fixed-size-list array of width `w`
over an inner array of `k` elements has `k / w` rows. -/
def ArrowArray.len : ArrowArray → Nat
  | .primitive ty values => values.length / elemSize ty
  | .fixedSizeList width inner => inner.len / width

/-- A polars `Series`: a named arrow array. -/
structure Series where
  name : String
  array : ArrowArray
deriving DecidableEq, Repr

def Series.len (s : Series) : Nat := s.array.len

/-- The neutral exchange form (`arrow::array::ArrayData`) reached through the
C FFI in `SeriesExt::to_array_data`: per node, its own data buffers plus its
child arrays.  Validity bitmaps are not part of `ArrayData::buffers()` in
arrow-rs (they live in a separate `nulls` field), and the arrays built here
carry no validity anyway (`tensor_array` passes `None`), so buffers hold data
bytes only. -/
inductive ArrayData where
  | mk (buffers : List (List Nat)) (children : List ArrayData)

/-- FFI image of the arrays this module builds: a non-null primitive array
has one data buffer (its values) and no children; a fixed-size-list array has
no buffers of its own and a single child. -/
def ArrowArray.toArrayData : ArrowArray → ArrayData
  | .primitive _ values => .mk [values] []
  | .fixedSizeList _ inner => .mk [] [inner.toArrayData]

mutual
/-- Embedding of `recurse_array_data` (`polars.rs:494`): visit child arrays
first (depth-first), then append the node's own buffers. -/
def recurse_array_data : ArrayData → List Nat
  | .mk buffers children => recurseChildren children ++ buffers.flatten

/-- The `for child in array_data.child_data()` loop of `recurse_array_data`. -/
def recurseChildren : List ArrayData → List Nat
  | [] => []
  | c :: cs => recurse_array_data c ++ recurseChildren cs
end

/-- Embedding of `SeriesExt::to_bytes`: export the series through the FFI
exchange form and concatenate every buffer depth-first. -/
def Series.to_bytes (s : Series) : List Nat :=
  recurse_array_data s.array.toArrayData

/-! The column bridge (`HostColumn::from_series` / `HostColumn::to_series`). -/

/-- The polars-side errors this module can propagate (`Error::Polars`,
converted via `From<PolarsError>` by the `?` operator / `Error::from`). -/
inductive PolarsErr where
  | ColumnNotFound (name : String)
  | other
deriving DecidableEq, Repr

/-- Kinds of `std::io::Error` observable here. -/
inductive IoErr where
  | notFound
  | other
deriving DecidableEq, Repr

/-- The crate error type (`nox_ecs::Error`, defined outside `src/`).
Variants `Io`, `Json`, `Postcard`, `Polars`, `Arrow`, `ComponentNotFound`
and `InvalidComponentId` are exercised by the code in `polars.rs`; variants
`MissingEntityColumn`, `MissingArchetypeFile`, `ArrayLayoutMismatch` and
`Unsupported` are modelled from the spec's error taxonomy (§7c, §7d) so that
claims naming them can be stated. -/
inductive Error where
  | Io (e : IoErr)
  | Json
  | Postcard
  | Polars (e : PolarsErr)
  | Arrow
  | ComponentNotFound
  | InvalidComponentId
  | MissingEntityColumn
  | MissingArchetypeFile
  | ArrayLayoutMismatch
  | Unsupported
deriving DecidableEq, Repr

/-- The host-side column buffer (`nox_ecs::HostColumn`; its fields are the
ones constructed in `HostColumn::from_series`): raw bytes, logical length,
component id, component type, asset flag. -/
structure HostColumn where
  buf : List Nat
  len : Nat
  component_id : Nat
  component_type : ComponentType
  asset : Bool
deriving DecidableEq, Repr

/-- Embedding of `HostColumn::from_series` (`polars.rs:230`): extract the
raw bytes, take the series length, and parse the series name as the decimal
`ComponentId` (failing with `InvalidComponentId`). -/
def HostColumn.from_series (series : Series) (component_type : ComponentType)
    (asset : Bool) : RustResult Error HostColumn :=
  let buf := series.to_bytes
  let len := series.len
  match parseU64 series.name with
  | none => .err .InvalidComponentId
  | some component_id =>
      .ok { buf, len, component_id, component_type, asset }

/-- Embedding of `HostColumn::prim_array::<T>`
(`PrimitiveArray::from_slice(self.typed_buf::<T>().unwrap())`): reinterpret
the raw byte buffer as typed elements.  Modelled from the spec: `typed_buf`
(defined outside `src/`) yields the buffer reinterpreted as elements of the
primitive kind and is only defined when the element size divides the buffer
length (spec §8 buffer sizing invariant); the `.unwrap()` turns the
ill-sized case into a panic. -/
def HostColumn.prim_array (c : HostColumn) (ty : PrimitiveTy) :
    RustResult Error ArrowArray :=
  if elemSize ty ∣ c.buf.length then .ok (.primitive ty c.buf) else .panic

/-- Embedding of `tensor_array` (`polars.rs:291`): scalar columns (empty
shape) keep the flat primitive array; tensor columns wrap it as a
fixed-size-list array of width `product(shape)`. -/
def tensor_array (ty : ComponentType) (inner : ArrowArray) : ArrowArray :=
  if ty.shape.isEmpty then inner
  else .fixedSizeList ty.shape.prod inner

/-- Model of `Series::from_arrow(name, array)`: attach the name.  For the
array layouts built by `to_series` this constructor cannot fail. -/
def seriesFromArrow (name : String) (array : ArrowArray) :
    RustResult Error Series :=
  .ok ⟨name, array⟩

/-- Embedding of `HostColumn::to_series` (`polars.rs:251`): build the flat
primitive array for the column's primitive kind (every non-bool arm calls
`tensor_array(&ct, self.prim_array::<T>())`), wrap per the shape, and name
the series with the decimal component id.  The `Bool` arm is `todo!()`,
i.e. abnormal termination. -/
def HostColumn.to_series (c : HostColumn) : RustResult Error Series :=
  match c.component_type.primitive_ty with
  | .bool => .panic
  | ty =>
      (c.prim_array ty).bind fun arr =>
        seriesFromArrow (decimalString c.component_id)
          (tensor_array c.component_type arr)

/-! Association-list model of `BTreeMap` (iteration in ascending key order;
`collect()` inserts key by key).  A map value is represented by its ordered
entry list; maps built by Rust's `BTreeMap` always have strictly ascending
keys, expressed by `keysSorted` where a theorem needs it. -/

/-- Insertion into the ordered entry list of a `BTreeMap` (replacing an
equal key, keeping ascending order). -/
def btreeInsert (k : Nat) (v : α) : List (Nat × α) → List (Nat × α)
  | [] => [(k, v)]
  | (k', v') :: rest =>
      if k < k' then (k, v) :: (k', v') :: rest
      else if k = k' then (k, v) :: rest
      else (k', v') :: btreeInsert k v rest

/-- Building a `BTreeMap` from a sequence of entries (`collect()`). -/
def btreeFromList (l : List (Nat × α)) : List (Nat × α) :=
  l.foldl (fun m kv => btreeInsert kv.1 kv.2 m) []

/-- The entry list has strictly ascending keys (the invariant of every
`BTreeMap` iteration). -/
def keysSorted : List (Nat × α) → Bool
  | [] => true
  | [_] => true
  | (k, _) :: (k', v') :: rest =>
      decide (k < k') && keysSorted ((k', v') :: rest)

/-- Map lookup (`BTreeMap::get` / `HashMap::get`) on an entry list. -/
def alookup : List (Nat × α) → Nat → Option α
  | [], _ => none
  | (k', v) :: rest, k => if k = k' then some v else alookup rest k

/-- A polars `DataFrame`: its ordered list of series. -/
abbrev DataFrame := List Series

/-- Embedding of `polars::DataFrame::column(name)`: find the series with
the given name, failing with the polars column-not-found error. -/
def DataFrame.columnByName (df : DataFrame) (name : String) :
    Except PolarsErr Series :=
  match (df : List Series).find? (fun s => s.name == name) with
  | some s => .ok s
  | none => .error (.ColumnNotFound name)

/-- Modelled from the spec: `conduit::Metadata` (not under `src/`) carries at
least the component's id and its `ComponentType` — the two fields
`polars.rs` reads (`metadata.metadata.component_id`,
`metadata.metadata.component_type`). -/
structure ConduitMetadata where
  component_id : Nat
  component_type : ComponentType
deriving DecidableEq, Repr

/-- A typed column of a live table (`nox_ecs::Column<HostStore>`; the fields
constructed in `Table::from_dataframe`): host buffer plus conduit
metadata. -/
structure Column where
  buffer : HostColumn
  metadata : ConduitMetadata
deriving DecidableEq, Repr

/-- A live archetype table (`nox_ecs::Table<HostStore>`; the fields used in
`polars.rs`): `BTreeMap ComponentId → Column`, the entity-id column, and the
entity map `EntityId → row index`. -/
structure Table where
  columns : List (Nat × Column)
  entity_buffer : HostColumn
  entity_map : List (Nat × Nat)
deriving DecidableEq, Repr

/-- Per-column side metadata (`ColumnMetadata` in `polars.rs`). -/
structure ColumnMetadata where
  metadata : ConduitMetadata
  asset : Bool
deriving DecidableEq, Repr

/-- Per-archetype side metadata (`ArchetypeMetadata` in `polars.rs`). -/
structure ArchetypeMetadata where
  columns : List ColumnMetadata
  entity_map : List (Nat × Nat)
deriving DecidableEq, Repr

/-- The snapshot manifest (`Metadata` in `polars.rs`). -/
structure Metadata where
  archetypes : List (Nat × ArchetypeMetadata)
  component_map : List (Nat × Nat)
  tick : Nat
  entity_len : Nat
deriving DecidableEq, Repr

/-- Modelled from the spec: the `AssetStore` is an opaque blob (§3, §6 —
"opaque compact-binary blob"), cloned and copied whole by every operation
here; an abstract value suffices. -/
abbrev AssetStore := Nat

/-- The external representation of a whole world (`PolarsWorld`). -/
structure PolarsWorld where
  archetypes : List (Nat × DataFrame)
  metadata : Metadata
  assets : AssetStore
deriving DecidableEq

/-- The live world (`nox_ecs::World<HostStore>`; the fields used in
`polars.rs`): archetype map, component → archetype index, assets, tick and
entity count. -/
structure World where
  archetypes : List (Nat × Table)
  component_map : List (Nat × Nat)
  assets : AssetStore
  tick : Nat
  entity_len : Nat
deriving DecidableEq

/-- Embedding of `Table::from_dataframe` (`polars.rs:171`): zip the
metadata's column list against the dataframe's series in stored order,
skipping the reserved entity-id column; convert each pair with
`from_series`; collect keyed by the metadata's component id into a
`BTreeMap`; then locate the entity-id column by name — its absence is
mapped to `Error::ComponentNotFound` — and convert it as a scalar u64
column; the entity map is copied from the metadata. -/
def Table.from_dataframe (df : DataFrame) (metadata : ArchetypeMetadata) :
    RustResult Error Table :=
  (mapME
      (fun (p : ColumnMetadata × Series) =>
        (HostColumn.from_series p.2 p.1.metadata.component_type p.1.asset).bind
          fun buffer =>
            .ok (p.1.metadata.component_id,
              ({ buffer, metadata := p.1.metadata } : Column)))
      (metadata.columns.zip
        ((df : List Series).filter (fun s => s.name != entityIdString)))).bind
    fun columns =>
  ((match df.columnByName entityIdString with
    | .ok s => .ok s
    | .error _ => .err Error.ComponentNotFound) : RustResult Error Series).bind
    fun entitySeries =>
  (HostColumn.from_series entitySeries ComponentType.u64 false).bind
    fun entity_buffer =>
  .ok { columns := btreeFromList columns, entity_buffer,
        entity_map := metadata.entity_map }

/-- Embedding of `Table::to_polars` (`polars.rs:203`): collect
`{metadata, asset}` per column in iteration order, copy the entity map, and
build the dataframe from each column's series followed by the entity
column's series. -/
def Table.to_polars (t : Table) :
    RustResult Error (ArchetypeMetadata × DataFrame) :=
  let columns := t.columns.map fun kv =>
    ({ metadata := kv.2.metadata, asset := kv.2.buffer.asset } : ColumnMetadata)
  let metadata : ArchetypeMetadata := ⟨columns, t.entity_map⟩
  (mapME HostColumn.to_series
      (t.columns.map (fun kv => kv.2.buffer) ++ [t.entity_buffer])).bind
    fun series => .ok (metadata, (series : DataFrame))

/-- Embedding of `World::to_polars` (`polars.rs:100`): convert every
archetype table (in ascending id order), collecting dataframes and
archetype metadata into two `BTreeMap`s with the same keys, and copy
component map, tick, entity count and assets. -/
def World.to_polars (w : World) : RustResult Error PolarsWorld :=
  (mapME
      (fun (kv : Nat × Table) =>
        (Table.to_polars kv.2).bind fun md => .ok (kv.1, md))
      w.archetypes).bind fun converted =>
  .ok { archetypes := btreeFromList (converted.map fun kv => (kv.1, kv.2.2))
        metadata :=
          { archetypes := btreeFromList (converted.map fun kv => (kv.1, kv.2.1))
            component_map := w.component_map
            tick := w.tick
            entity_len := w.entity_len }
        assets := w.assets }

/-- Embedding of `TryFrom<PolarsWorld> for World<HostStore>`
(`polars.rs:124`): zip the dataframe map's entries positionally with the
manifest metadata map's values (both iterated in ascending key order),
rebuild each table with `Table::from_dataframe`, and collect into the
archetype `BTreeMap`; no check that the two key sets agree. -/
def World.tryFrom (p : PolarsWorld) : RustResult Error World :=
  (mapME
      (fun (z : (Nat × DataFrame) × ArchetypeMetadata) =>
        (Table.from_dataframe z.1.2 z.2).bind fun t => .ok (z.1.1, t))
      (p.archetypes.zip (p.metadata.archetypes.map fun kv => kv.2))).bind
    fun archetypes =>
  .ok { archetypes := btreeFromList archetypes
        component_map := p.metadata.component_map
        assets := p.assets
        tick := p.metadata.tick
        entity_len := p.metadata.entity_len }

/-! World snapshot I/O.  File-system and codec effects are modelled
explicitly: the read path sees a directory as a finite map from file name to
decoded content (the external codecs — serde_json, parquet, postcard — are
opaque collaborators, so a file either decodes to a value of the expected
kind or is `corrupt`); the write path is parametrized by the outcome of each
effectful step, so that the control flow of `write_to_dir` (which steps are
propagated with `?` and which are `.unwrap()`ed) is captured exactly. -/

/-- Decoded content of one snapshot file. -/
inductive FileData where
  | json (m : Metadata)
  | parquet (df : DataFrame)
  | bin (assets : AssetStore)
  | corrupt
deriving DecidableEq

/-- A snapshot directory: file name → decoded content. -/
abbrev Dir := List (String × FileData)

def Dir.lookup (d : Dir) (name : String) : Option FileData :=
  ((d : List (String × FileData)).find? (fun kv => kv.1 == name)).map
    (fun kv => kv.2)

/-- Data file name of one archetype: `format!("{}.parquet", id.to_raw())`. -/
def parquetName (id : Nat) : String := decimalString id ++ ".parquet"

/-- The per-archetype loop of `read_from_dir`: for every archetype id listed
in the manifest, in ascending order, open the id's parquet file (`File::open`
propagates a not-found I/O error via `?`) and decode it. -/
def readArchetypeFiles (d : Dir) : List Nat →
    RustResult Error (List (Nat × DataFrame))
  | [] => .ok []
  | id :: ids =>
      match d.lookup (parquetName id) with
      | none => .err (.Io .notFound)
      | some (.parquet df) =>
          (readArchetypeFiles d ids).bind fun rest => .ok ((id, df) :: rest)
      | some _ => .err (.Polars .other)

/-- Embedding of `PolarsWorld::read_from_dir` (`polars.rs:78`): open and
decode `metadata.json`; for every archetype id in the manifest open and
decode its parquet file; read and decode `assets.bin`. -/
def PolarsWorld.read_from_dir (d : Dir) : RustResult Error PolarsWorld :=
  ((match d.lookup "metadata.json" with
    | none => .err (.Io .notFound)
    | some (.json m) => .ok m
    | some _ => .err .Json) : RustResult Error Metadata).bind fun metadata =>
  (readArchetypeFiles d (metadata.archetypes.map fun kv => kv.1)).bind
    fun archetypes =>
  ((match d.lookup "assets.bin" with
    | none => .err (.Io .notFound)
    | some (.bin a) => .ok a
    | some _ => .err .Postcard) : RustResult Error AssetStore).bind
    fun assets =>
  .ok { archetypes := btreeFromList archetypes, metadata, assets }

/-- Outcomes of the effectful steps of `PolarsWorld::write_to_dir`, one field
per call site; the writer is deterministic given these outcomes. -/
structure WriteEnv where
  create_dir_all : Except IoErr Unit
  create_file : String → Except IoErr Unit
  json_encode : Except Unit Unit
  to_record_batch : Nat → RustResult Error Unit
  arrow_writer_new : Nat → Except Unit Unit
  arrow_writer_write : Nat → Except Unit Unit
  arrow_writer_close : Nat → Except Unit Unit
  postcard_encode : Except Unit Unit

/-- A `?` on a `std::io` call: the error is converted and returned. -/
def ioStep (r : Except IoErr Unit) : RustResult Error Unit :=
  match r with
  | .ok _ => .ok ()
  | .error e => .err (.Io e)

/-- An `.unwrap()` on a fallible call: failure is abnormal termination. -/
def unwrapStep (r : Except Unit Unit) : RustResult Error Unit :=
  match r with
  | .ok _ => .ok ()
  | .error _ => .panic

/-- The per-archetype loop of `write_to_dir`: create the data file (`?`),
convert the dataframe to a record batch (`?`), then construct, feed and
close the parquet writer — each of these three `.unwrap()`ed. -/
def writeArchetypeFiles (env : WriteEnv) : List (Nat × DataFrame) →
    RustResult Error Unit
  | [] => .ok ()
  | (id, _) :: rest =>
      (ioStep (env.create_file (parquetName id))).bind fun _ =>
      (env.to_record_batch id).bind fun _ =>
      (unwrapStep (env.arrow_writer_new id)).bind fun _ =>
      (unwrapStep (env.arrow_writer_write id)).bind fun _ =>
      (unwrapStep (env.arrow_writer_close id)).bind fun _ =>
      writeArchetypeFiles env rest

/-- Embedding of `PolarsWorld::write_to_dir` (`polars.rs:56`): create the
directory (`?`), create and JSON-encode the manifest (`?`), write each
archetype's parquet file in ascending id order, create `assets.bin` (`?`)
and postcard-encode the assets (`.unwrap()`ed). -/
def PolarsWorld.write_to_dir (env : WriteEnv) (p : PolarsWorld) :
    RustResult Error Unit :=
  (ioStep env.create_dir_all).bind fun _ =>
  (ioStep (env.create_file "metadata.json")).bind fun _ =>
  ((match env.json_encode with
    | .ok _ => .ok ()
    | .error _ => .err .Json) : RustResult Error Unit).bind fun _ =>
  (writeArchetypeFiles env p.archetypes).bind fun _ =>
  (ioStep (env.create_file "assets.bin")).bind fun _ =>
  unwrapStep env.postcard_encode

/-! The read-only columnar adapter (`impl ColumnStore for &PolarsWorld`). -/

/-- The adapter's column handle (`PolarsColumnRef`): the entity-id series
and the value series of the queried component. -/
structure PolarsColumnRef where
  entity_series : Series
  buf : Series
deriving DecidableEq, Repr

/-- Embedding of `ColumnStore::column for &PolarsWorld` (`polars.rs:515`):
`component_map` lookup (missing → `ComponentNotFound`), archetype-map lookup
(missing → `ComponentNotFound`), then the two named-column lookups, whose
polars errors are propagated by `?` (i.e. converted to `Error::Polars`, not
`ComponentNotFound`). -/
def PolarsWorld.column (p : PolarsWorld) (id : Nat) :
    RustResult Error PolarsColumnRef :=
  ((match alookup p.metadata.component_map id with
    | none => .err .ComponentNotFound
    | some a => .ok a) : RustResult Error Nat).bind fun archetype =>
  ((match alookup p.archetypes archetype with
    | none => .err .ComponentNotFound
    | some t => .ok t) : RustResult Error DataFrame).bind fun table =>
  ((match table.columnByName entityIdString with
    | .ok s => .ok s
    | .error e => .err (.Polars e)) : RustResult Error Series).bind
    fun entity_series =>
  ((match table.columnByName (decimalString id) with
    | .ok s => .ok s
    | .error e => .err (.Polars e)) : RustResult Error Series).bind
    fun buf =>
  .ok { entity_series, buf }

/-! Well-formedness.  These predicates record the invariants the live data
structures carry by construction (spec §3, §8): buffer sizing, the entity
column's fixed type and id, map sortedness, and component ids being genuine
`u64` values distinct from the reserved sentinel. -/

/-- Well-formedness of one table column stored under key `k`. -/
def WFColumn (k : Nat) (c : Column) : Bool :=
  decide (c.metadata.component_id = k) &&
  decide (c.buffer.component_id = k) &&
  decide (k < 2 ^ 64) &&
  decide (k ≠ ENTITY_ID_COMPONENT) &&
  decide (c.buffer.component_type = c.metadata.component_type) &&
  decide (c.buffer.component_type.primitive_ty ≠ PrimitiveTy.bool) &&
  decide (0 < c.buffer.component_type.shape.prod) &&
  decide (c.buffer.buf.length =
    c.buffer.len * elemSize c.buffer.component_type.primitive_ty *
      c.buffer.component_type.shape.prod)

/-- Well-formedness of a live table. -/
def WFTable (t : Table) : Bool :=
  keysSorted t.columns &&
  t.columns.all (fun kv => WFColumn kv.1 kv.2) &&
  decide (t.entity_buffer.component_id = ENTITY_ID_COMPONENT) &&
  decide (t.entity_buffer.component_type = ComponentType.u64) &&
  !t.entity_buffer.asset &&
  decide (t.entity_buffer.buf.length = t.entity_buffer.len * 8)

/-- Well-formedness of a live world. -/
def WFWorld (w : World) : Bool :=
  keysSorted w.archetypes && w.archetypes.all (fun kv => WFTable kv.2)

/-! Decimal-string lemmas: `u64::to_string` composed with
`str::parse::<u64>` is the identity. -/

theorem digitChar_toNat (d : Nat) (h : d < 10) : (digitChar d).toNat = 48 + d := by
  interval_cases d <;> decide

theorem digitChar_isDigit (d : Nat) (h : d < 10) : (digitChar d).isDigit = true := by
  interval_cases d <;> decide

theorem digitChar_ne_plus (d : Nat) (h : d < 10) : digitChar d ≠ '+' := by
  interval_cases d <;> decide

theorem toDigitsRev_ne_nil (n : Nat) : toDigitsRev n ≠ [] := by
  rw [toDigitsRev, toDigitsRevCore]
  split <;> simp

theorem mem_toDigitsRevCore :
    ∀ (fuel n : Nat), ∀ c ∈ toDigitsRevCore fuel n,
      ∃ d, d < 10 ∧ c = digitChar d := by
  intro fuel
  induction fuel with
  | zero => intro n c hc; simp [toDigitsRevCore] at hc
  | succ fuel ih =>
      intro n c hc
      rw [toDigitsRevCore] at hc
      by_cases h : n < 10
      · rw [if_pos h] at hc
        simp only [List.mem_singleton] at hc
        exact ⟨n, h, hc⟩
      · rw [if_neg h] at hc
        rcases List.mem_cons.mp hc with hc | hc
        · exact ⟨n % 10, Nat.mod_lt _ (by omega), hc⟩
        · exact ih (n / 10) c hc

theorem mem_toDigitsRev (n : Nat) :
    ∀ c ∈ toDigitsRev n, ∃ d, d < 10 ∧ c = digitChar d :=
  mem_toDigitsRevCore (n + 1) n

theorem parseNatCore_append (xs ys : List Char) (acc : Nat) :
    parseNatCore (xs ++ ys) acc =
      (parseNatCore xs acc).bind (fun a => parseNatCore ys a) := by
  induction xs generalizing acc with
  | nil => simp [parseNatCore]
  | cons c cs ih =>
      simp only [List.cons_append, parseNatCore]
      split
      · exact ih _
      · simp

theorem parseNatCore_toDigitsCore :
    ∀ (fuel n : Nat), n < fuel → ∀ acc,
      parseNatCore (toDigitsRevCore fuel n).reverse acc =
        some (acc * 10 ^ (toDigitsRevCore fuel n).length + n) := by
  intro fuel
  induction fuel with
  | zero => omega
  | succ fuel ih =>
      intro n hn acc
      by_cases h : n < 10
      · rw [toDigitsRevCore, if_pos h]
        simp [parseNatCore, digitChar_isDigit n h, digitChar_toNat n h]
      · have hdiv : n / 10 < n := Nat.div_lt_self (by omega) (by omega)
        rw [toDigitsRevCore, if_neg h]
        simp only [List.reverse_cons, List.length_cons]
        rw [parseNatCore_append, ih (n / 10) (by omega) acc]
        have h10 : n % 10 < 10 := Nat.mod_lt _ (by omega)
        simp [parseNatCore, digitChar_isDigit _ h10, digitChar_toNat _ h10,
          Option.bind]
        ring_nf
        omega

theorem parseNatCore_toDigits (n : Nat) :
    ∀ acc, parseNatCore (toDigitsRev n).reverse acc =
      some (acc * 10 ^ (toDigitsRev n).length + n) :=
  parseNatCore_toDigitsCore (n + 1) n (by omega)

theorem stripPlus_of_ne (c : Char) (cs : List Char) (h : c ≠ '+') :
    stripPlus (c :: cs) = c :: cs := by
  rw [stripPlus.eq_def]
  split
  · rename_i heq
    exact absurd (List.cons.injEq .. ▸ congrArg id heq) (by simp [h])
  · rfl

theorem parseU64_decimalString (n : Nat) (h : n < 2 ^ 64) :
    parseU64 (decimalString n) = some n := by
  have hne : (toDigitsRev n).reverse ≠ [] := by
    simp [toDigitsRev_ne_nil n]
  have hstrip : stripPlus (toDigitsRev n).reverse = (toDigitsRev n).reverse := by
    rcases hd : (toDigitsRev n).reverse with _ | ⟨c, cs⟩
    · exact absurd hd hne
    · have hc : c ∈ (toDigitsRev n).reverse := by rw [hd]; exact List.mem_cons_self ..
      rcases mem_toDigitsRev n c (List.mem_reverse.mp hc) with ⟨d, hd10, rfl⟩
      exact stripPlus_of_ne _ _ (digitChar_ne_plus d hd10)
  rw [parseU64]
  show (match stripPlus (decimalString n).data with
    | [] => none
    | ds => (parseNatCore ds 0).bind fun m => if m < 2 ^ 64 then some m else none) = some n
  have hdata : (decimalString n).data = (toDigitsRev n).reverse := rfl
  rw [hdata, hstrip]
  rcases hd : (toDigitsRev n).reverse with _ | ⟨c, cs⟩
  · exact absurd hd hne
  · have := parseNatCore_toDigits n 0
    rw [hd] at this
    simp [this, h]
    omega

theorem decimalString_inj {a b : Nat} (h : decimalString a = decimalString b) :
    a = b := by
  have ha := parseNatCore_toDigits a 0
  have hb := parseNatCore_toDigits b 0
  have hdata : (toDigitsRev a).reverse = (toDigitsRev b).reverse :=
    congrArg String.data h
  rw [hdata, hb] at ha
  simp at ha
  omega

/-! Generic lemmas about `mapME` and the `BTreeMap` model. -/

theorem RustResult.ok_bind (a : α) (f : α → RustResult ε β) :
    (RustResult.ok a).bind f = f a := rfl

theorem RustResult.bind_assoc (r : RustResult ε α) (f : α → RustResult ε β)
    (g : β → RustResult ε γ) :
    (r.bind f).bind g = r.bind fun a => (f a).bind g := by
  cases r <;> rfl

theorem RustResult.bind_ok (r : RustResult ε α) : r.bind .ok = r := by
  cases r <;> rfl

theorem mapME_append (f : α → RustResult ε β) (xs ys : List α) :
    mapME f (xs ++ ys) =
      (mapME f xs).bind fun bs => (mapME f ys).bind fun cs => .ok (bs ++ cs) := by
  induction xs with
  | nil =>
      simp only [List.nil_append, mapME, RustResult.ok_bind, List.nil_append]
      rw [← RustResult.bind_ok (mapME f ys)]
      rw [RustResult.bind_assoc]
      simp [RustResult.ok_bind, RustResult.bind_ok]
  | cons a as ih =>
      simp only [List.cons_append, mapME, List.append_eq, ih,
        RustResult.bind_assoc, RustResult.ok_bind, List.cons_append]

theorem mapME_congr (f g : α → RustResult ε β) (l : List α)
    (h : ∀ x ∈ l, f x = g x) : mapME f l = mapME g l := by
  induction l with
  | nil => rfl
  | cons a as ih =>
      simp only [mapME]
      rw [h a (List.mem_cons_self ..), ih (fun x hx => h x (List.mem_cons_of_mem _ hx))]

theorem mapME_ok_of_pointwise (f : α → RustResult ε β) (g : α → β)
    (l : List α) (h : ∀ x ∈ l, f x = .ok (g x)) :
    mapME f l = .ok (l.map g) := by
  induction l with
  | nil => rfl
  | cons a as ih =>
      simp only [mapME, h a (List.mem_cons_self ..), RustResult.bind,
        ih (fun x hx => h x (List.mem_cons_of_mem _ hx)), List.map_cons]

theorem mapME_map_ok (f : β → RustResult ε γ) (g : α → β) (h : α → γ)
    (l : List α) (hp : ∀ x ∈ l, f (g x) = .ok (h x)) :
    mapME f (l.map g) = .ok (l.map h) := by
  induction l with
  | nil => rfl
  | cons a as ih =>
      simp only [List.map_cons, mapME, hp a (List.mem_cons_self ..),
        RustResult.ok_bind,
        ih (fun x hx => hp x (List.mem_cons_of_mem _ hx))]

theorem keysSorted_iff_chain (l : List (Nat × α)) :
    keysSorted l = true ↔ l.Chain' (fun a b => a.1 < b.1) := by
  induction l with
  | nil => simp [keysSorted]
  | cons x t ih =>
      cases t with
      | nil => simp [keysSorted]
      | cons y s =>
          rw [keysSorted, List.chain'_cons, Bool.and_eq_true, decide_eq_true_iff, ih]

theorem keysSorted_iff_pairwise (l : List (Nat × α)) :
    keysSorted l = true ↔ l.Pairwise (fun a b => a.1 < b.1) := by
  letI : IsTrans (Nat × α) (fun a b => a.1 < b.1) :=
    ⟨fun a b c h1 h2 => lt_trans h1 h2⟩
  rw [keysSorted_iff_chain, List.chain'_iff_pairwise]

theorem keysSorted_cons {x : Nat × α} {l : List (Nat × α)}
    (h : keysSorted (x :: l) = true) :
    keysSorted l = true ∧ ∀ kv ∈ l, x.1 < kv.1 := by
  rw [keysSorted_iff_pairwise] at h
  rcases List.pairwise_cons.mp h with ⟨h1, h2⟩
  exact ⟨(keysSorted_iff_pairwise l).mpr h2, h1⟩

theorem btreeInsert_gt {l : List (Nat × α)} {k : Nat} (v : α)
    (h : ∀ kv ∈ l, kv.1 < k) : btreeInsert k v l = l ++ [(k, v)] := by
  induction l with
  | nil => rfl
  | cons x t ih =>
      have hx := h x (List.mem_cons_self ..)
      rw [btreeInsert]
      rw [if_neg (by omega), if_neg (by omega),
        ih (fun kv hkv => h kv (List.mem_cons_of_mem _ hkv))]
      rfl

theorem btreeFold_sorted (l acc : List (Nat × α))
    (h : keysSorted (acc ++ l) = true) :
    List.foldl (fun m kv => btreeInsert kv.1 kv.2 m) acc l = acc ++ l := by
  induction l generalizing acc with
  | nil => simp
  | cons x t ih =>
      rw [List.foldl_cons]
      have hlt : ∀ kv ∈ acc, kv.1 < x.1 := by
        rw [keysSorted_iff_pairwise, List.pairwise_append] at h
        intro kv hkv
        exact h.2.2 kv hkv x (List.mem_cons_self ..)
      rw [btreeInsert_gt x.2 hlt]
      have h' : keysSorted ((acc ++ [x]) ++ t) = true := by
        simpa using h
      rw [ih (acc ++ [(x.1, x.2)]) h']
      simp

theorem btreeFromList_sorted {l : List (Nat × α)} (h : keysSorted l = true) :
    btreeFromList l = l := by
  have := btreeFold_sorted l [] (by simpa using h)
  simpa [btreeFromList] using this

theorem keysSorted_map (l : List (Nat × α)) (f : Nat × α → β) :
    keysSorted (l.map fun kv => (kv.1, f kv)) = keysSorted l := by
  induction l with
  | nil => rfl
  | cons x t ih =>
      cases t with
      | nil => rfl
      | cons y s =>
          simp only [List.map_cons, keysSorted] at *
          rw [ih]

/-! Byte-extraction lemmas for the two array layouts this module builds. -/

theorem recurseChildren_eq_map (l : List ArrayData) :
    recurseChildren l = (l.map recurse_array_data).flatten := by
  induction l with
  | nil => rfl
  | cons c cs ih => rw [recurseChildren, ih, List.map_cons, List.flatten_cons]

theorem to_bytes_primitive (name : String) (ty : PrimitiveTy) (vals : List Nat) :
    Series.to_bytes ⟨name, .primitive ty vals⟩ = vals := by
  simp [Series.to_bytes, ArrowArray.toArrayData, recurse_array_data,
    recurseChildren]

theorem to_bytes_fixedSizeList (name : String) (w : Nat) (ty : PrimitiveTy)
    (vals : List Nat) :
    Series.to_bytes ⟨name, .fixedSizeList w (.primitive ty vals)⟩ = vals := by
  simp [Series.to_bytes, ArrowArray.toArrayData, recurse_array_data,
    recurseChildren]

/-! Column-level round trip: `to_series` followed by `from_series`
reproduces the host column exactly. -/

/-- The series `to_series` produces for a (non-bool, well-sized) column:
the flat primitive array over the raw bytes, wrapped per the shape, named by
the decimal component id. -/
def seriesOfBuffer (b : HostColumn) : Series :=
  ⟨decimalString b.component_id,
   tensor_array b.component_type
     (.primitive b.component_type.primitive_ty b.buf)⟩

theorem to_series_eq (b : HostColumn)
    (h1 : b.component_type.primitive_ty ≠ PrimitiveTy.bool)
    (h2 : elemSize b.component_type.primitive_ty ∣ b.buf.length) :
    b.to_series = .ok (seriesOfBuffer b) := by
  rw [HostColumn.to_series.eq_def]
  cases hty : b.component_type.primitive_ty <;>
    simp_all [HostColumn.prim_array, seriesOfBuffer, seriesFromArrow,
      RustResult.bind]

theorem to_bytes_seriesOfBuffer (b : HostColumn) :
    (seriesOfBuffer b).to_bytes = b.buf := by
  rw [seriesOfBuffer, tensor_array]
  split
  · exact to_bytes_primitive ..
  · exact to_bytes_fixedSizeList ..

theorem len_seriesOfBuffer (b : HostColumn)
    (hlen : b.buf.length =
      b.len * elemSize b.component_type.primitive_ty *
        b.component_type.shape.prod)
    (hp : 0 < b.component_type.shape.prod) :
    (seriesOfBuffer b).len = b.len := by
  have hsz := elemSize_pos b.component_type.primitive_ty
  rw [seriesOfBuffer, tensor_array]
  split
  · rename_i hsh
    have hnil : b.component_type.shape = [] := by
      simpa [List.isEmpty_iff] using hsh
    simp only [Series.len, ArrowArray.len, hlen, hnil, List.prod_nil, mul_one]
    exact Nat.mul_div_cancel _ hsz
  · simp only [Series.len, ArrowArray.len, hlen]
    have hre : b.len * elemSize b.component_type.primitive_ty *
        b.component_type.shape.prod =
        b.len * b.component_type.shape.prod *
          elemSize b.component_type.primitive_ty := by ring
    rw [hre, Nat.mul_div_cancel _ hsz, Nat.mul_div_cancel _ hp]

theorem from_series_seriesOfBuffer (b : HostColumn) (ct : ComponentType)
    (a : Bool) (hid : b.component_id < 2 ^ 64)
    (hlen : b.buf.length =
      b.len * elemSize b.component_type.primitive_ty *
        b.component_type.shape.prod)
    (hp : 0 < b.component_type.shape.prod) :
    HostColumn.from_series (seriesOfBuffer b) ct a =
      .ok { buf := b.buf, len := b.len, component_id := b.component_id,
            component_type := ct, asset := a } := by
  unfold HostColumn.from_series
  rw [show (seriesOfBuffer b).name = decimalString b.component_id from rfl,
    parseU64_decimalString _ hid]
  simp [to_bytes_seriesOfBuffer, len_seriesOfBuffer b hlen hp]

theorem buffer_round (b : HostColumn)
    (h1 : b.component_type.primitive_ty ≠ PrimitiveTy.bool)
    (hid : b.component_id < 2 ^ 64)
    (hlen : b.buf.length =
      b.len * elemSize b.component_type.primitive_ty *
        b.component_type.shape.prod)
    (hp : 0 < b.component_type.shape.prod) :
    (b.to_series).bind
      (fun s => HostColumn.from_series s b.component_type b.asset) = .ok b := by
  have hdvd : elemSize b.component_type.primitive_ty ∣ b.buf.length :=
    ⟨b.len * b.component_type.shape.prod, by rw [hlen]; ring⟩
  rw [to_series_eq b h1 hdvd, RustResult.ok_bind,
    from_series_seriesOfBuffer b _ _ hid hlen hp]

/-! Table-level round trip. -/

/-- The archetype metadata `Table::to_polars` emits. -/
def mdOfTable (t : Table) : ArchetypeMetadata :=
  ⟨t.columns.map fun kv =>
    ({ metadata := kv.2.metadata, asset := kv.2.buffer.asset } : ColumnMetadata),
   t.entity_map⟩

/-- The dataframe `Table::to_polars` emits: one series per column in
iteration order, then the entity-id series. -/
def dfOfTable (t : Table) : DataFrame :=
  (t.columns.map fun kv => seriesOfBuffer kv.2.buffer) ++
    [seriesOfBuffer t.entity_buffer]

theorem WFColumn_spec {k : Nat} {c : Column} (h : WFColumn k c = true) :
    c.metadata.component_id = k ∧ c.buffer.component_id = k ∧ k < 2 ^ 64 ∧
    k ≠ ENTITY_ID_COMPONENT ∧
    c.buffer.component_type = c.metadata.component_type ∧
    c.buffer.component_type.primitive_ty ≠ PrimitiveTy.bool ∧
    0 < c.buffer.component_type.shape.prod ∧
    c.buffer.buf.length =
      c.buffer.len * elemSize c.buffer.component_type.primitive_ty *
        c.buffer.component_type.shape.prod := by
  simpa [WFColumn, Bool.and_eq_true, decide_eq_true_iff, and_assoc] using h

theorem WFTable_spec {t : Table} (h : WFTable t = true) :
    keysSorted t.columns = true ∧
    (∀ kv ∈ t.columns, WFColumn kv.1 kv.2 = true) ∧
    t.entity_buffer.component_id = ENTITY_ID_COMPONENT ∧
    t.entity_buffer.component_type = ComponentType.u64 ∧
    t.entity_buffer.asset = false ∧
    t.entity_buffer.buf.length = t.entity_buffer.len * 8 := by
  have h' := h
  simp only [WFTable, Bool.and_eq_true, decide_eq_true_iff, List.all_eq_true,
    Bool.not_eq_true'] at h'
  tauto

theorem WFWorld_spec {w : World} (h : WFWorld w = true) :
    keysSorted w.archetypes = true ∧
    ∀ kv ∈ w.archetypes, WFTable kv.2 = true := by
  simpa [WFWorld, Bool.and_eq_true, List.all_eq_true] using h

theorem ENTITY_lt : ENTITY_ID_COMPONENT < 2 ^ 64 := by decide

theorem find?_skip (p : α → Bool) (l1 l2 : List α)
    (h : ∀ x ∈ l1, p x = false) :
    (l1 ++ l2).find? p = l2.find? p := by
  induction l1 with
  | nil => rfl
  | cons x t ih =>
      rw [List.cons_append, List.find?_cons, h x (List.mem_cons_self ..),
        ih (fun y hy => h y (List.mem_cons_of_mem _ hy))]

/-- The entity buffer of a well-formed table satisfies the hypotheses of the
column round-trip lemmas (it is a scalar u64 column). -/
theorem entity_buffer_facts {t : Table} (h : WFTable t = true) :
    t.entity_buffer.component_type.primitive_ty ≠ PrimitiveTy.bool ∧
    t.entity_buffer.component_id < 2 ^ 64 ∧
    t.entity_buffer.buf.length =
      t.entity_buffer.len * elemSize t.entity_buffer.component_type.primitive_ty *
        t.entity_buffer.component_type.shape.prod ∧
    0 < t.entity_buffer.component_type.shape.prod := by
  obtain ⟨-, -, hied, hct, -, hblen⟩ := WFTable_spec h
  refine ⟨?_, ?_, ?_, ?_⟩
  · rw [hct]; simp [ComponentType.u64]
  · rw [hied]; exact ENTITY_lt
  · rw [hct]; simpa [ComponentType.u64, elemSize] using hblen
  · rw [hct]; simp [ComponentType.u64]

theorem to_polars_eq (t : Table) (h : WFTable t = true) :
    Table.to_polars t = .ok (mdOfTable t, dfOfTable t) := by
  obtain ⟨-, hcols, -, -, -, -⟩ := WFTable_spec h
  obtain ⟨heb1, heb2, heb3, heb4⟩ := entity_buffer_facts h
  rw [Table.to_polars, mapME_append]
  have hvals : mapME HostColumn.to_series (t.columns.map fun kv => kv.2.buffer) =
      .ok (t.columns.map fun kv => seriesOfBuffer kv.2.buffer) := by
    rw [show (t.columns.map fun kv => seriesOfBuffer kv.2.buffer) =
        (t.columns.map fun kv => kv.2.buffer).map seriesOfBuffer by
      rw [List.map_map]; rfl]
    refine mapME_ok_of_pointwise _ _ _ fun b hb => ?_
    rcases List.mem_map.mp hb with ⟨kv, hkv, rfl⟩
    obtain ⟨-, -, -, -, -, hb6, hb7, hb8⟩ := WFColumn_spec (hcols kv hkv)
    exact to_series_eq _ hb6 ⟨kv.2.buffer.len * kv.2.buffer.component_type.shape.prod,
      by rw [hb8]; ring⟩
  have hent : mapME HostColumn.to_series [t.entity_buffer] =
      .ok [seriesOfBuffer t.entity_buffer] := by
    have := to_series_eq t.entity_buffer heb1
      ⟨t.entity_buffer.len * t.entity_buffer.component_type.shape.prod,
        by rw [heb3]; ring⟩
    simp [mapME, this, RustResult.bind]
  rw [hvals, hent]
  simp [RustResult.bind, mdOfTable, dfOfTable]

theorem from_dataframe_eq (t : Table) (h : WFTable t = true) :
    Table.from_dataframe (dfOfTable t) (mdOfTable t) = .ok t := by
  obtain ⟨hsorted, hcols, hied, hct, hasset, -⟩ := WFTable_spec h
  obtain ⟨heb1, heb2, heb3, heb4⟩ := entity_buffer_facts h
  have hnames : ∀ kv ∈ t.columns,
      (seriesOfBuffer kv.2.buffer).name ≠ entityIdString := by
    intro kv hkv heq
    obtain ⟨-, hb2, -, hb4, -, -, -, -⟩ := WFColumn_spec (hcols kv hkv)
    refine hb4 ?_
    have heq' : decimalString kv.2.buffer.component_id =
        decimalString ENTITY_ID_COMPONENT := heq
    rw [← hb2]
    exact decimalString_inj heq'
  have hfilter : (dfOfTable t : List Series).filter
      (fun s => s.name != entityIdString) =
      t.columns.map fun kv => seriesOfBuffer kv.2.buffer := by
    rw [dfOfTable, List.filter_append]
    have h1 : (t.columns.map fun kv => seriesOfBuffer kv.2.buffer).filter
        (fun s => s.name != entityIdString) =
        t.columns.map fun kv => seriesOfBuffer kv.2.buffer := by
      refine List.filter_eq_self.mpr fun s hs => ?_
      rcases List.mem_map.mp hs with ⟨kv, hkv, rfl⟩
      simpa [bne_iff_ne] using hnames kv hkv
    have h2 : ([seriesOfBuffer t.entity_buffer] : List Series).filter
        (fun s => s.name != entityIdString) = [] := by
      have : (seriesOfBuffer t.entity_buffer).name = entityIdString := by
        rw [show (seriesOfBuffer t.entity_buffer).name =
          decimalString t.entity_buffer.component_id from rfl, hied]
        rfl
      simp [List.filter, this]
    rw [h1, h2, List.append_nil]
  have hentfind : (dfOfTable t).columnByName entityIdString =
      .ok (seriesOfBuffer t.entity_buffer) := by
    rw [DataFrame.columnByName, dfOfTable]
    rw [find?_skip _ _ _ (by
      intro s hs
      rcases List.mem_map.mp hs with ⟨kv, hkv, rfl⟩
      simpa [beq_eq_false_iff_ne] using hnames kv hkv)]
    have : (seriesOfBuffer t.entity_buffer).name = entityIdString := by
      rw [show (seriesOfBuffer t.entity_buffer).name =
        decimalString t.entity_buffer.component_id from rfl, hied]
      rfl
    simp [List.find?, this]
  rw [Table.from_dataframe, hfilter]
  have hzip : (mdOfTable t).columns.zip
      (t.columns.map fun kv => seriesOfBuffer kv.2.buffer) =
      t.columns.map fun kv =>
        (({ metadata := kv.2.metadata, asset := kv.2.buffer.asset } :
            ColumnMetadata), seriesOfBuffer kv.2.buffer) := by
    rw [mdOfTable]
    exact List.zip_map' _ _ _
  rw [hzip]
  have hmap : mapME
      (fun (p : ColumnMetadata × Series) =>
        (HostColumn.from_series p.2 p.1.metadata.component_type p.1.asset).bind
          fun buffer =>
            .ok (p.1.metadata.component_id,
              ({ buffer, metadata := p.1.metadata } : Column)))
      (t.columns.map fun kv =>
        (({ metadata := kv.2.metadata, asset := kv.2.buffer.asset } :
            ColumnMetadata), seriesOfBuffer kv.2.buffer)) =
      .ok t.columns := by
    have hpt := mapME_map_ok
      (fun (p : ColumnMetadata × Series) =>
        (HostColumn.from_series p.2 p.1.metadata.component_type p.1.asset).bind
          fun buffer =>
            .ok (p.1.metadata.component_id,
              ({ buffer, metadata := p.1.metadata } : Column)))
      (fun kv : Nat × Column =>
        (({ metadata := kv.2.metadata, asset := kv.2.buffer.asset } :
            ColumnMetadata), seriesOfBuffer kv.2.buffer))
      (fun kv : Nat × Column => (kv.1, kv.2))
      t.columns ?_
    · rw [hpt]
      rw [show (t.columns.map fun kv : Nat × Column => (kv.1, kv.2)) =
        t.columns from List.map_id t.columns]
    · intro kv hkv
      obtain ⟨hb1, hb2, hb3, -, hb5, hb6, hb7, hb8⟩ :=
        WFColumn_spec (hcols kv hkv)
      have hfs := from_series_seriesOfBuffer kv.2.buffer
        kv.2.metadata.component_type kv.2.buffer.asset (hb2 ▸ hb3) hb8 hb7
      show (HostColumn.from_series (seriesOfBuffer kv.2.buffer)
          kv.2.metadata.component_type kv.2.buffer.asset).bind _ = _
      rw [hfs, RustResult.ok_bind, hb1, ← hb5]
  rw [hmap, RustResult.ok_bind, hentfind]
  have hfse := from_series_seriesOfBuffer t.entity_buffer
    ComponentType.u64 false heb2 heb3 heb4
  rw [RustResult.ok_bind, hfse, RustResult.ok_bind, ← hct, ← hasset,
    btreeFromList_sorted hsorted]
  rfl

theorem table_round (t : Table) (h : WFTable t = true) :
    (Table.to_polars t).bind (fun p => Table.from_dataframe p.2 p.1) =
      .ok t := by
  rw [to_polars_eq t h, RustResult.ok_bind]
  exact from_dataframe_eq t h

/-! World-level round trip. -/

/-- The external world `World::to_polars` emits for a well-formed world. -/
def polarsOfWorld (w : World) : PolarsWorld :=
  { archetypes := w.archetypes.map fun kv => (kv.1, dfOfTable kv.2)
    metadata :=
      { archetypes := w.archetypes.map fun kv => (kv.1, mdOfTable kv.2)
        component_map := w.component_map
        tick := w.tick
        entity_len := w.entity_len }
    assets := w.assets }

theorem world_to_polars_eq (w : World) (h : WFWorld w = true) :
    World.to_polars w = .ok (polarsOfWorld w) := by
  obtain ⟨hsorted, htabs⟩ := WFWorld_spec h
  rw [World.to_polars]
  have hconv : mapME
      (fun (kv : Nat × Table) =>
        (Table.to_polars kv.2).bind fun md => .ok (kv.1, md))
      w.archetypes =
      .ok (w.archetypes.map fun kv => (kv.1, (mdOfTable kv.2, dfOfTable kv.2))) := by
    refine mapME_ok_of_pointwise _ _ _ fun kv hkv => ?_
    rw [to_polars_eq kv.2 (htabs kv hkv), RustResult.ok_bind]
  rw [hconv, RustResult.ok_bind]
  have h1 : ((w.archetypes.map fun kv =>
      (kv.1, (mdOfTable kv.2, dfOfTable kv.2))).map fun kv => (kv.1, kv.2.2)) =
      w.archetypes.map fun kv => (kv.1, dfOfTable kv.2) := by
    rw [List.map_map]; rfl
  have h2 : ((w.archetypes.map fun kv =>
      (kv.1, (mdOfTable kv.2, dfOfTable kv.2))).map fun kv => (kv.1, kv.2.1)) =
      w.archetypes.map fun kv => (kv.1, mdOfTable kv.2) := by
    rw [List.map_map]; rfl
  rw [h1, h2,
    btreeFromList_sorted (by rw [keysSorted_map]; exact hsorted),
    btreeFromList_sorted (by rw [keysSorted_map]; exact hsorted)]
  rfl

theorem world_tryFrom_eq (w : World) (h : WFWorld w = true) :
    World.tryFrom (polarsOfWorld w) = .ok w := by
  obtain ⟨hsorted, htabs⟩ := WFWorld_spec h
  rw [World.tryFrom]
  have hzip : (polarsOfWorld w).archetypes.zip
      ((polarsOfWorld w).metadata.archetypes.map fun kv => kv.2) =
      w.archetypes.map fun kv =>
        ((kv.1, dfOfTable kv.2), mdOfTable kv.2) := by
    show ((w.archetypes.map fun kv => (kv.1, dfOfTable kv.2)).zip
      ((w.archetypes.map fun kv => (kv.1, mdOfTable kv.2)).map fun kv => kv.2)) = _
    rw [List.map_map]
    exact List.zip_map' _ _ _
  rw [hzip]
  have hmap : mapME
      (fun (z : (Nat × DataFrame) × ArchetypeMetadata) =>
        (Table.from_dataframe z.1.2 z.2).bind fun t => .ok (z.1.1, t))
      (w.archetypes.map fun kv => ((kv.1, dfOfTable kv.2), mdOfTable kv.2)) =
      .ok w.archetypes := by
    have hpt := mapME_map_ok
      (fun (z : (Nat × DataFrame) × ArchetypeMetadata) =>
        (Table.from_dataframe z.1.2 z.2).bind fun t => .ok (z.1.1, t))
      (fun kv : Nat × Table => ((kv.1, dfOfTable kv.2), mdOfTable kv.2))
      (fun kv : Nat × Table => (kv.1, kv.2))
      w.archetypes ?_
    · rw [hpt]
      rw [show (w.archetypes.map fun kv : Nat × Table => (kv.1, kv.2)) =
        w.archetypes from List.map_id w.archetypes]
    · intro kv hkv
      show (Table.from_dataframe (dfOfTable kv.2) (mdOfTable kv.2)).bind _ = _
      rw [from_dataframe_eq kv.2 (htabs kv hkv), RustResult.ok_bind]
  rw [hmap, RustResult.ok_bind, btreeFromList_sorted hsorted]
  rfl

/-! Concrete example values used by witnesses and counterexamples. -/

/-- A well-formed scalar `u8` host column with component id 100. -/
def exColumnBuffer : HostColumn :=
  { buf := [42], len := 1, component_id := 100,
    component_type := ⟨.u8, []⟩, asset := false }

/-- The corresponding live column. -/
def exColumn : Column :=
  { buffer := exColumnBuffer, metadata := ⟨100, ⟨.u8, []⟩⟩ }

/-- A one-row entity-id buffer. -/
def exEntityBuffer : HostColumn :=
  { buf := [0, 0, 0, 0, 0, 0, 0, 0], len := 1,
    component_id := ENTITY_ID_COMPONENT,
    component_type := ComponentType.u64, asset := false }

/-- A one-entity, one-component archetype table. -/
def exTable : Table :=
  { columns := [(100, exColumn)], entity_buffer := exEntityBuffer,
    entity_map := [(0, 0)] }

/-- A one-archetype world. -/
def exWorld : World :=
  { archetypes := [(0, exTable)], component_map := [(100, 0)],
    assets := (0 : Nat), tick := 0, entity_len := 1 }

/-- A column of boolean primitive kind. -/
def boolColumn : HostColumn :=
  { buf := [1], len := 1, component_id := 7,
    component_type := ⟨.bool, []⟩, asset := false }

/-- C1: In-memory round trip — for every World with well-formed tables,
converting with `World::to_polars` and reconstructing with
`World::try_from` yields a world equal to the original (in particular its
archetype map, entity maps and column byte buffers are identical). -/
theorem C1_in_memory_round_trip (w : World) (h : WFWorld w = true) :
    (World.to_polars w).bind World.tryFrom = .ok w := by
  rw [world_to_polars_eq w h, RustResult.ok_bind]
  exact world_tryFrom_eq w h

/-- C1 witness: the round trip evaluated on a concrete one-archetype
world. -/
theorem C1_witness :
    WFWorld exWorld = true ∧
      (World.to_polars exWorld).bind World.tryFrom = .ok exWorld :=
  ⟨by decide, C1_in_memory_round_trip exWorld (by decide)⟩

/-- C2 counterexample: on a bool column `to_series` terminates abnormally
(the `Bool` arm of the match is `todo!()`), so it does not return the
`Unsupported` error the claim names. -/
theorem C2_counterexample :
    HostColumn.to_series boolColumn = .panic ∧
      HostColumn.to_series boolColumn ≠ .err Error.Unsupported := by
  constructor <;> decide

/-- C2 (amended): for every column whose primitive kind is bool,
`to_series` terminates abnormally via `todo!()` — it never silently
miscodes bits (no series value is produced at all), but it panics rather
than returning an `Unsupported` error. -/
theorem C2_bool_panics (c : HostColumn)
    (h : c.component_type.primitive_ty = PrimitiveTy.bool) :
    HostColumn.to_series c = .panic := by
  rw [HostColumn.to_series.eq_def, h]

/-- C2 witness: the amended theorem applied to a concrete bool column. -/
theorem C2_witness :
    boolColumn.component_type.primitive_ty = PrimitiveTy.bool ∧
      HostColumn.to_series boolColumn = .panic :=
  ⟨rfl, C2_bool_panics boolColumn rfl⟩

/-- C5: byte extraction — `recurse_array_data` visits child arrays
depth-first before the node's own buffers and concatenates every buffer in
that order with no framing; hence a flat primitive series yields exactly its
value bytes (`row_count × element_size` of them) and a
fixed-size-list-over-primitive series yields exactly the inner value bytes
(`row_count × element_count × element_size` of them). -/
theorem C5_byte_extraction :
    (∀ (buffers : List (List Nat)) (children : List ArrayData),
        recurse_array_data (.mk buffers children) =
          (children.map recurse_array_data).flatten ++ buffers.flatten) ∧
    (∀ (name : String) (ty : PrimitiveTy) (vals : List Nat),
        Series.to_bytes ⟨name, .primitive ty vals⟩ = vals) ∧
    (∀ (name : String) (w : Nat) (ty : PrimitiveTy) (vals : List Nat),
        Series.to_bytes ⟨name, .fixedSizeList w (.primitive ty vals)⟩ = vals) ∧
    (∀ (name : String) (rows count : Nat) (ty : PrimitiveTy) (vals : List Nat),
        vals.length = rows * count * elemSize ty →
        (Series.to_bytes
            ⟨name, .fixedSizeList count (.primitive ty vals)⟩).length =
          rows * count * elemSize ty) ∧
    (∀ (name : String) (rows : Nat) (ty : PrimitiveTy) (vals : List Nat),
        vals.length = rows * elemSize ty →
        (Series.to_bytes ⟨name, .primitive ty vals⟩).length =
          rows * elemSize ty) := by
  refine ⟨?_, ?_, ?_, ?_, ?_⟩
  · intro buffers children
    rw [recurse_array_data, recurseChildren_eq_map]
  · intro name ty vals
    exact to_bytes_primitive name ty vals
  · intro name w ty vals
    exact to_bytes_fixedSizeList name w ty vals
  · intro name rows count ty vals h
    rw [to_bytes_fixedSizeList, h]
  · intro name rows ty vals h
    rw [to_bytes_primitive, h]

/-- C5 witness: the sizing parts evaluated on concrete arrays (two f64 rows
of a width-3 tensor, and two u16 scalar rows). -/
theorem C5_witness :
    ([0, 1, 2, 3] : List Nat).length = 2 * elemSize PrimitiveTy.u16 ∧
    (Series.to_bytes ⟨"100", .primitive PrimitiveTy.u16 [0, 1, 2, 3]⟩).length =
      2 * elemSize PrimitiveTy.u16 ∧
    (List.replicate 48 (7 : Nat)).length = 2 * 3 * elemSize PrimitiveTy.f64 ∧
    (Series.to_bytes ⟨"100", .fixedSizeList 3
        (.primitive PrimitiveTy.f64 (List.replicate 48 7))⟩).length =
      2 * 3 * elemSize PrimitiveTy.f64 :=
  ⟨by decide,
   C5_byte_extraction.2.2.2.2 "100" 2 PrimitiveTy.u16 [0, 1, 2, 3] (by decide),
   by decide,
   C5_byte_extraction.2.2.2.1 "100" 2 3 PrimitiveTy.f64
     (List.replicate 48 7) (by decide)⟩

/-- C6: ComponentId identity round trip — `to_series` names the produced
series with the decimal string of the component id; `from_series` parses
the name back to exactly that id; and a series whose name does not denote a
u64 (non-numeric, trailing garbage, or overflowing 64 bits, i.e.
`parseU64` fails) makes `from_series` fail with `InvalidComponentId`. -/
theorem C6_component_id_round_trip :
    (∀ b : HostColumn,
        b.component_type.primitive_ty ≠ PrimitiveTy.bool →
        elemSize b.component_type.primitive_ty ∣ b.buf.length →
        ∃ s, HostColumn.to_series b = .ok s ∧
          s.name = decimalString b.component_id) ∧
    (∀ (n : Nat) (arr : ArrowArray) (ct : ComponentType) (a : Bool),
        n < 2 ^ 64 →
        HostColumn.from_series ⟨decimalString n, arr⟩ ct a =
          .ok { buf := Series.to_bytes ⟨decimalString n, arr⟩,
                len := Series.len ⟨decimalString n, arr⟩,
                component_id := n, component_type := ct, asset := a }) ∧
    (∀ (s : Series) (ct : ComponentType) (a : Bool),
        parseU64 s.name = none →
        HostColumn.from_series s ct a = .err Error.InvalidComponentId) := by
  refine ⟨?_, ?_, ?_⟩
  · intro b h1 h2
    exact ⟨seriesOfBuffer b, to_series_eq b h1 h2, rfl⟩
  · intro n arr ct a hn
    unfold HostColumn.from_series
    rw [show (Series.mk (decimalString n) arr).name = decimalString n from rfl,
      parseU64_decimalString n hn]
  · intro s ct a h
    unfold HostColumn.from_series
    rw [h]

/-- C6 witness: round trip at id 100; failure at a non-numeric name, at a
name with trailing garbage, and at an overflowing name. -/
theorem C6_witness :
    (∃ s, HostColumn.to_series exColumnBuffer = .ok s ∧
        s.name = decimalString exColumnBuffer.component_id) ∧
    HostColumn.from_series ⟨decimalString 100, .primitive PrimitiveTy.u8 [5]⟩
        ⟨.u8, []⟩ false =
      .ok { buf := [5], len := 1, component_id := 100,
            component_type := ⟨.u8, []⟩, asset := false } ∧
    HostColumn.from_series ⟨"abc", .primitive PrimitiveTy.u8 [5]⟩
        ⟨.u8, []⟩ false = .err Error.InvalidComponentId ∧
    HostColumn.from_series ⟨"12x", .primitive PrimitiveTy.u8 [5]⟩
        ⟨.u8, []⟩ false = .err Error.InvalidComponentId ∧
    HostColumn.from_series
        ⟨decimalString (2 ^ 64), .primitive PrimitiveTy.u8 [5]⟩
        ⟨.u8, []⟩ false = .err Error.InvalidComponentId := by
  refine ⟨C6_component_id_round_trip.1 exColumnBuffer (by decide) (by decide),
    ?_, ?_, ?_, ?_⟩
  · rw [C6_component_id_round_trip.2.1 100 (.primitive PrimitiveTy.u8 [5])
      ⟨.u8, []⟩ false (by decide)]
    decide
  · exact C6_component_id_round_trip.2.2 _ _ _ (by decide)
  · exact C6_component_id_round_trip.2.2 _ _ _ (by decide)
  · exact C6_component_id_round_trip.2.2 _ _ _ (by decide)

/-- C7: shape fidelity of `to_series` — a non-empty-shape column becomes
the flat primitive array wrapped as a fixed-size-list array of width
`product(shape)`, while an empty-shape column's flat primitive array is the
external representation directly (no wrapping).  Well-sized columns with
positive tensor width are assumed (the buffer sizing invariant of §8). -/
theorem C7_shape_fidelity (c : HostColumn)
    (h1 : c.component_type.primitive_ty ≠ PrimitiveTy.bool)
    (h2 : c.buf.length =
      c.len * elemSize c.component_type.primitive_ty *
        c.component_type.shape.prod)
    (_h3 : 0 < c.component_type.shape.prod) :
    (c.component_type.shape ≠ [] →
      HostColumn.to_series c =
        .ok ⟨decimalString c.component_id,
          .fixedSizeList c.component_type.shape.prod
            (.primitive c.component_type.primitive_ty c.buf)⟩) ∧
    (c.component_type.shape = [] →
      HostColumn.to_series c =
        .ok ⟨decimalString c.component_id,
          .primitive c.component_type.primitive_ty c.buf⟩) := by
  have hdvd : elemSize c.component_type.primitive_ty ∣ c.buf.length :=
    ⟨c.len * c.component_type.shape.prod, by rw [h2]; ring⟩
  have heq := to_series_eq c h1 hdvd
  constructor
  · intro hsh
    rw [heq, seriesOfBuffer, tensor_array,
      if_neg (by simpa [List.isEmpty_iff] using hsh)]
  · intro hsh
    rw [heq, seriesOfBuffer, tensor_array, if_pos (by simpa [List.isEmpty_iff] using hsh)]

/-- C7 witness: a shape-[7] f64 tensor column wraps as a width-7
fixed-size list; a scalar u8 column stays flat. -/
theorem C7_witness :
    HostColumn.to_series
        { buf := List.replicate 56 0, len := 1, component_id := 100,
          component_type := ⟨.f64, [7]⟩, asset := false } =
      .ok ⟨decimalString 100,
        .fixedSizeList 7 (.primitive .f64 (List.replicate 56 0))⟩ ∧
    HostColumn.to_series exColumnBuffer =
      .ok ⟨decimalString 100, .primitive .u8 [42]⟩ :=
  ⟨(C7_shape_fidelity
      { buf := List.replicate 56 0, len := 1, component_id := 100,
        component_type := ⟨.f64, [7]⟩, asset := false }
      (by decide) (by decide) (by decide)).1 (by decide),
   (C7_shape_fidelity exColumnBuffer (by decide) (by decide) (by decide)).2 rfl⟩

/-! Claims C3 and C4: missing entity column, missing archetype file. -/

theorem mapME_exists_ok (f : α → RustResult ε β) (l : List α)
    (h : ∀ x ∈ l, ∃ b, f x = .ok b) : ∃ bs, mapME f l = .ok bs := by
  induction l with
  | nil => exact ⟨[], rfl⟩
  | cons a as ih =>
      rcases h a (List.mem_cons_self ..) with ⟨b, hb⟩
      rcases ih (fun x hx => h x (List.mem_cons_of_mem _ hx)) with ⟨bs, hbs⟩
      exact ⟨b :: bs, by rw [mapME, hb, RustResult.ok_bind, hbs,
        RustResult.ok_bind]⟩

/-- C3 counterexample: on a dataframe without the reserved entity-id column
`Table::from_dataframe` fails with `ComponentNotFound` (the code maps the
failed lookup with `.map_err(|_| Error::ComponentNotFound)`), not with the
`MissingEntityColumn` error the claim names. -/
theorem C3_counterexample :
    Table.from_dataframe ([] : DataFrame) ⟨[], []⟩ =
        .err Error.ComponentNotFound ∧
      Table.from_dataframe ([] : DataFrame) ⟨[], []⟩ ≠
        .err Error.MissingEntityColumn := by
  constructor <;> decide

/-- C3 (amended): for every dataframe without a column named by the
reserved entity-id string, and whose series names all parse as component
ids (so the per-column conversions preceding the entity lookup succeed),
`Table::from_dataframe` fails with `ComponentNotFound` — not
`MissingEntityColumn`. -/
theorem C3_missing_entity_column (df : DataFrame) (md : ArchetypeMetadata)
    (hno : ∀ s ∈ (df : List Series), s.name ≠ entityIdString)
    (hparse : ∀ s ∈ (df : List Series), ∃ n, parseU64 s.name = some n) :
    Table.from_dataframe df md = .err Error.ComponentNotFound := by
  rw [Table.from_dataframe]
  have hcols : ∃ bs, mapME
      (fun (p : ColumnMetadata × Series) =>
        (HostColumn.from_series p.2 p.1.metadata.component_type p.1.asset).bind
          fun buffer =>
            .ok (p.1.metadata.component_id,
              ({ buffer, metadata := p.1.metadata } : Column)))
      (md.columns.zip
        ((df : List Series).filter (fun s => s.name != entityIdString))) =
      .ok bs := by
    refine mapME_exists_ok _ _ fun p hp => ?_
    have hmem : p.2 ∈ (df : List Series) :=
      List.mem_of_mem_filter (List.of_mem_zip hp).2
    rcases hparse p.2 hmem with ⟨n, hn⟩
    refine ⟨(p.1.metadata.component_id,
      ⟨⟨p.2.to_bytes, p.2.len, n, p.1.metadata.component_type, p.1.asset⟩,
        p.1.metadata⟩), ?_⟩
    unfold HostColumn.from_series
    rw [hn]
    rfl
  rcases hcols with ⟨bs, hbs⟩
  rw [hbs, RustResult.ok_bind]
  have hfind : (df : List Series).find?
      (fun s => s.name == entityIdString) = none := by
    rw [List.find?_eq_none]
    intro s hs
    simpa using hno s hs
  rw [DataFrame.columnByName, hfind]
  rfl

/-- C3 witness: a dataframe holding one properly-named value series but no
entity column fails with `ComponentNotFound`. -/
theorem C3_witness :
    Table.from_dataframe
        ([⟨decimalString 5, .primitive PrimitiveTy.u8 [9]⟩] : DataFrame)
        ⟨[{ metadata := ⟨5, ⟨.u8, []⟩⟩, asset := false }], []⟩ =
      .err Error.ComponentNotFound :=
  C3_missing_entity_column _ _
    (by
      intro s hs
      simp only [List.mem_singleton] at hs
      subst hs
      decide)
    (by
      intro s hs
      simp only [List.mem_singleton] at hs
      subst hs
      exact ⟨5, by decide⟩)

/-- The per-archetype read loop only succeeds when every listed archetype's
parquet file is present (and decodes). -/
theorem readArchetypeFiles_ok_mem (d : Dir) :
    ∀ (ids : List Nat) (l : List (Nat × DataFrame)),
      readArchetypeFiles d ids = .ok l →
      ∀ id ∈ ids, ∃ df, d.lookup (parquetName id) = some (.parquet df) := by
  intro ids
  induction ids with
  | nil => intro l _ id hid; simp at hid
  | cons i is ih =>
      intro l hl id hid
      rw [readArchetypeFiles] at hl
      rcases hlook : d.lookup (parquetName i) with _ | fd
      · rw [hlook] at hl; exact absurd hl (by simp)
      · rw [hlook] at hl
        cases fd with
        | parquet df =>
            rcases List.mem_cons.mp hid with rfl | hid'
            · exact ⟨df, hlook⟩
            · rcases hrest : readArchetypeFiles d is with rest | e | _
              · exact ih rest hrest id hid'
              · rw [hrest] at hl; exact absurd hl (by simp [RustResult.bind])
              · rw [hrest] at hl; exact absurd hl (by simp [RustResult.bind])
        | json m => exact absurd hl (by simp)
        | bin a => exact absurd hl (by simp)
        | corrupt => exact absurd hl (by simp)

/-- C4 (amended): a manifest-listed archetype id whose parquet data file is
absent makes `read_from_dir` fail — it yields no world at all — with the
raw file-open I/O error (`File::open` propagated by `?`), not with a
dedicated `MissingArchetypeFile` error; in particular when the first listed
archetype's file is missing the result is exactly the not-found I/O
error. -/
theorem C4_missing_archetype_file :
    (∀ (d : Dir) (md : Metadata) (id : Nat),
        Dir.lookup d "metadata.json" = some (.json md) →
        id ∈ md.archetypes.map (fun kv => kv.1) →
        Dir.lookup d (parquetName id) = none →
        ∀ w, PolarsWorld.read_from_dir d ≠ .ok w) ∧
    (∀ (d : Dir) (md : Metadata) (id : Nat) (amd : ArchetypeMetadata)
        (rest : List (Nat × ArchetypeMetadata)),
        Dir.lookup d "metadata.json" = some (.json md) →
        md.archetypes = (id, amd) :: rest →
        Dir.lookup d (parquetName id) = none →
        PolarsWorld.read_from_dir d = .err (.Io .notFound)) := by
  constructor
  · intro d md id hmeta hid hmiss w hok
    rw [PolarsWorld.read_from_dir, hmeta, RustResult.ok_bind] at hok
    rcases hra : readArchetypeFiles d (md.archetypes.map fun kv => kv.1)
      with l | e | _
    · rcases readArchetypeFiles_ok_mem d _ l hra id hid with ⟨df, hdf⟩
      rw [hmiss] at hdf
      exact absurd hdf (by simp)
    · rw [hra] at hok; exact absurd hok (by simp [RustResult.bind])
    · rw [hra] at hok; exact absurd hok (by simp [RustResult.bind])
  · intro d md id amd rest hmeta hhead hmiss
    rw [PolarsWorld.read_from_dir, hmeta, RustResult.ok_bind, hhead]
    rw [List.map_cons, readArchetypeFiles, hmiss]
    rfl

/-- A manifest listing archetype 0 with no matching data file on disk. -/
def exMissingDir : Dir :=
  [("metadata.json", .json ⟨[(0, ⟨[], []⟩)], [], 0, 0⟩),
   ("assets.bin", .bin (0 : Nat))]

/-- C4 counterexample: reading that directory yields the raw not-found I/O
error, which is not a `MissingArchetypeFile` error, and no world. -/
theorem C4_counterexample :
    PolarsWorld.read_from_dir exMissingDir = .err (.Io .notFound) ∧
      PolarsWorld.read_from_dir exMissingDir ≠
        .err Error.MissingArchetypeFile := by
  constructor <;> decide

/-- C4 witness: the amended theorem applied to the concrete directory. -/
theorem C4_witness :
    PolarsWorld.read_from_dir exMissingDir = .err (.Io .notFound) :=
  C4_missing_archetype_file.2 exMissingDir ⟨[(0, ⟨[], []⟩)], [], 0, 0⟩ 0
    ⟨[], []⟩ [] (by decide) (by decide) (by decide)

/-! Claim C8: error behavior of the snapshot writer. -/

theorem RustResult.bind_ne_panic {r : RustResult ε α} {f : α → RustResult ε β}
    (h1 : r ≠ .panic) (h2 : ∀ a, f a ≠ .panic) : r.bind f ≠ .panic := by
  cases r with
  | ok a => exact h2 a
  | err e => simp [RustResult.bind]
  | panic => exact absurd rfl h1

theorem ioStep_ne_panic (r : Except IoErr Unit) : ioStep r ≠ .panic := by
  cases r <;> simp [ioStep]

theorem writeArchetypeFiles_ne_panic (env : WriteEnv)
    (harrow : ∀ id, env.arrow_writer_new id = .ok () ∧
      env.arrow_writer_write id = .ok () ∧ env.arrow_writer_close id = .ok ())
    (hrb : ∀ id, env.to_record_batch id ≠ .panic) :
    ∀ l, writeArchetypeFiles env l ≠ .panic := by
  intro l
  induction l with
  | nil => simp [writeArchetypeFiles]
  | cons kv rest ih =>
      rcases kv with ⟨id, df⟩
      obtain ⟨h1, h2, h3⟩ := harrow id
      rw [writeArchetypeFiles, h1, h2, h3]
      refine RustResult.bind_ne_panic (ioStep_ne_panic _) fun _ => ?_
      refine RustResult.bind_ne_panic (hrb id) fun _ => ?_
      simp only [unwrapStep, RustResult.ok_bind]
      exact ih

/-- C8 counterexample: an execution in which every step succeeds except the
asset-blob (postcard) encoding — which `write_to_dir` `.unwrap()`s — makes
the writer terminate abnormally instead of returning the failure as an
error value. -/
def env0 : WriteEnv :=
  { create_dir_all := .ok (), create_file := fun _ => .ok ()
    json_encode := .ok (), to_record_batch := fun _ => .ok ()
    arrow_writer_new := fun _ => .ok (), arrow_writer_write := fun _ => .ok ()
    arrow_writer_close := fun _ => .ok (), postcard_encode := .error () }

/-- An empty external world for the writer examples. -/
def p0 : PolarsWorld :=
  { archetypes := [], metadata := ⟨[], [], 0, 0⟩, assets := (0 : Nat) }

/-- C8 counterexample: with a failing asset-blob encoder the snapshot write
panics (the `.unwrap()` on `postcard::to_io`), so the failure is not
returned to the caller as an error value. -/
theorem C8_counterexample :
    PolarsWorld.write_to_dir env0 p0 = .panic := by decide

/-- C8 (amended): failures of directory creation, manifest-file creation,
manifest JSON encoding, per-archetype file creation and record-batch
conversion are returned to the caller as error values (in particular a
failing `create_dir_all` returns its I/O error); but parquet-writer
construction/write/close failures and asset-blob encoding failures are
`.unwrap()`ed and terminate abnormally — only when those unwrapped steps
succeed is the writer guaranteed not to panic. -/
theorem C8_write_error_propagation :
    (∀ (env : WriteEnv) (p : PolarsWorld) (e : IoErr),
        env.create_dir_all = .error e →
        PolarsWorld.write_to_dir env p = .err (.Io e)) ∧
    (∀ (env : WriteEnv) (p : PolarsWorld),
        (∀ id, env.arrow_writer_new id = .ok () ∧
          env.arrow_writer_write id = .ok () ∧
          env.arrow_writer_close id = .ok ()) →
        (∀ id, env.to_record_batch id ≠ .panic) →
        env.postcard_encode = .ok () →
        PolarsWorld.write_to_dir env p ≠ .panic) := by
  constructor
  · intro env p e h
    rw [PolarsWorld.write_to_dir, h]
    rfl
  · intro env p harrow hrb hpost
    rw [PolarsWorld.write_to_dir, hpost]
    refine RustResult.bind_ne_panic (ioStep_ne_panic _) fun _ => ?_
    refine RustResult.bind_ne_panic (ioStep_ne_panic _) fun _ => ?_
    refine RustResult.bind_ne_panic ?_ fun _ => ?_
    · cases env.json_encode <;> simp
    refine RustResult.bind_ne_panic
      (writeArchetypeFiles_ne_panic env harrow hrb p.archetypes) fun _ => ?_
    refine RustResult.bind_ne_panic (ioStep_ne_panic _) fun _ => ?_
    simp [unwrapStep]

/-- The write environment in which directory creation itself fails. -/
def envFailDir : WriteEnv :=
  { create_dir_all := .error .other, create_file := fun _ => .ok ()
    json_encode := .ok (), to_record_batch := fun _ => .ok ()
    arrow_writer_new := fun _ => .ok (), arrow_writer_write := fun _ => .ok ()
    arrow_writer_close := fun _ => .ok (), postcard_encode := .ok () }

/-- The write environment in which every step succeeds. -/
def envAllOk : WriteEnv :=
  { create_dir_all := .ok (), create_file := fun _ => .ok ()
    json_encode := .ok (), to_record_batch := fun _ => .ok ()
    arrow_writer_new := fun _ => .ok (), arrow_writer_write := fun _ => .ok ()
    arrow_writer_close := fun _ => .ok (), postcard_encode := .ok () }

/-- C8 witness: both parts of the amended theorem applied to concrete
environments. -/
theorem C8_witness :
    PolarsWorld.write_to_dir envFailDir p0 = .err (.Io .other) ∧
      PolarsWorld.write_to_dir envAllOk p0 ≠ .panic :=
  ⟨C8_write_error_propagation.1 envFailDir p0 .other rfl,
   C8_write_error_propagation.2 envAllOk p0
     (fun _ => ⟨rfl, rfl, rfl⟩)
     (fun _ hc => RustResult.noConfusion hc) rfl⟩

/-! Claim C9: the read-only adapter's lookup chain. -/

/-- A one-archetype snapshot whose dataframe holds only the entity column,
with component 5 registered in the component map. -/
def dfC9 : DataFrame :=
  [⟨entityIdString, .primitive .u64 [0, 0, 0, 0, 0, 0, 0, 0]⟩]

def pC9 : PolarsWorld :=
  { archetypes := [(0, dfC9)]
    metadata := ⟨[(0, ⟨[], []⟩)], [(5, 0)], 0, 0⟩, assets := (0 : Nat) }

/-- C9 counterexample: when the named value column is missing from the
archetype's dataframe, the adapter fails with the propagated polars
column-not-found error (`Error::Polars`), not with `ComponentNotFound` as
the claim states for every missing step. -/
theorem C9_counterexample :
    PolarsWorld.column pC9 5 =
        .err (.Polars (.ColumnNotFound (decimalString 5))) ∧
      PolarsWorld.column pC9 5 ≠ .err Error.ComponentNotFound := by
  constructor <;> decide

/-- C9 (amended): the adapter's lookup proceeds ComponentId → ArchetypeId
via the manifest's component map, then ArchetypeId → dataframe via the
archetype map, then named column lookups; a miss in either of the two map
lookups fails with `ComponentNotFound`, while a miss in the named column
lookups (the reserved entity column or the decimal-named value column)
fails with the propagated polars error (`Error::Polars`), not
`ComponentNotFound`. -/
theorem C9_adapter_lookup :
    (∀ (p : PolarsWorld) (id : Nat),
        alookup p.metadata.component_map id = none →
        PolarsWorld.column p id = .err Error.ComponentNotFound) ∧
    (∀ (p : PolarsWorld) (id aid : Nat),
        alookup p.metadata.component_map id = some aid →
        alookup p.archetypes aid = none →
        PolarsWorld.column p id = .err Error.ComponentNotFound) ∧
    (∀ (p : PolarsWorld) (id aid : Nat) (df : DataFrame),
        alookup p.metadata.component_map id = some aid →
        alookup p.archetypes aid = some df →
        (df : List Series).find? (fun s => s.name == entityIdString) = none →
        PolarsWorld.column p id =
          .err (.Polars (.ColumnNotFound entityIdString))) ∧
    (∀ (p : PolarsWorld) (id aid : Nat) (df : DataFrame) (es : Series),
        alookup p.metadata.component_map id = some aid →
        alookup p.archetypes aid = some df →
        df.columnByName entityIdString = .ok es →
        (df : List Series).find? (fun s => s.name == decimalString id) =
          none →
        PolarsWorld.column p id =
          .err (.Polars (.ColumnNotFound (decimalString id)))) := by
  refine ⟨?_, ?_, ?_, ?_⟩
  · intro p id h
    rw [PolarsWorld.column, h]
    rfl
  · intro p id aid h1 h2
    rw [PolarsWorld.column, h1, RustResult.ok_bind, h2]
    rfl
  · intro p id aid df h1 h2 h3
    rw [PolarsWorld.column, h1, RustResult.ok_bind, h2, RustResult.ok_bind,
      DataFrame.columnByName, h3]
    rfl
  · intro p id aid df es h1 h2 h3 h4
    rw [PolarsWorld.column, h1, RustResult.ok_bind, h2, RustResult.ok_bind,
      h3, RustResult.ok_bind, DataFrame.columnByName, h4]
    rfl

/-- C9 witness: all four lookup outcomes on concrete snapshots. -/
theorem C9_witness :
    PolarsWorld.column p0 5 = .err Error.ComponentNotFound ∧
    PolarsWorld.column
        ({ archetypes := [], metadata := ⟨[], [(5, 0)], 0, 0⟩,
           assets := (0 : Nat) } : PolarsWorld) 5 =
      .err Error.ComponentNotFound ∧
    PolarsWorld.column
        ({ archetypes := [(0, ([] : DataFrame))],
           metadata := ⟨[], [(5, 0)], 0, 0⟩, assets := (0 : Nat) } :
          PolarsWorld) 5 =
      .err (.Polars (.ColumnNotFound entityIdString)) ∧
    PolarsWorld.column pC9 5 =
      .err (.Polars (.ColumnNotFound (decimalString 5))) :=
  ⟨C9_adapter_lookup.1 p0 5 rfl,
   C9_adapter_lookup.2.1 _ 5 0 rfl rfl,
   C9_adapter_lookup.2.2.1 _ 5 0 ([] : DataFrame) rfl rfl rfl,
   C9_adapter_lookup.2.2.2 pC9 5 0 dfC9
     ⟨entityIdString, .primitive .u64 [0, 0, 0, 0, 0, 0, 0, 0]⟩
     rfl rfl rfl (by decide)⟩

/-! Claim C10: the positional zip inside `World::try_from`. -/

/-- Modelled from the spec's description in the claim, for comparison: the
id-keyed variant of `World::try_from`, pairing each dataframe with the
metadata stored under its own archetype id (the `none` arm is an arbitrary
error, unreachable when the key sets agree). -/
def tryFromById (p : PolarsWorld) : RustResult Error World :=
  (mapME
      (fun (kd : Nat × DataFrame) =>
        match alookup p.metadata.archetypes kd.1 with
        | some md => (Table.from_dataframe kd.2 md).bind fun t => .ok (kd.1, t)
        | none => .err Error.ComponentNotFound)
      p.archetypes).bind fun archetypes =>
  .ok { archetypes := btreeFromList archetypes
        component_map := p.metadata.component_map
        assets := p.assets
        tick := p.metadata.tick
        entity_len := p.metadata.entity_len }

theorem tryFrom_zip_lookup :
    ∀ (la : List (Nat × DataFrame)) (lm : List (Nat × ArchetypeMetadata)),
      keysSorted lm = true →
      la.map (fun kv => kv.1) = lm.map (fun kv => kv.1) →
      mapME (fun (z : (Nat × DataFrame) × ArchetypeMetadata) =>
          (Table.from_dataframe z.1.2 z.2).bind fun t => .ok (z.1.1, t))
        (la.zip (lm.map fun kv => kv.2)) =
      mapME (fun (kd : Nat × DataFrame) =>
          match alookup lm kd.1 with
          | some md =>
              (Table.from_dataframe kd.2 md).bind fun t => .ok (kd.1, t)
          | none => .err Error.ComponentNotFound)
        la := by
  intro la
  induction la with
  | nil => intro lm _ _; rfl
  | cons kd ta ih =>
      intro lm hsort hkeys
      cases lm with
      | nil => simp at hkeys
      | cons km tm =>
          obtain ⟨hk, hkeys'⟩ : kd.1 = km.1 ∧
              ta.map (fun kv => kv.1) = tm.map (fun kv => kv.1) := by
            simpa using hkeys
          obtain ⟨hsort', hlt⟩ := keysSorted_cons hsort
          rw [List.map_cons, List.zip_cons_cons, mapME, mapME]
          rw [show alookup (km :: tm) kd.1 = some km.2 from by
            rcases km with ⟨k1, v1⟩
            simp [alookup, hk]]
          rw [ih tm hsort' hkeys']
          rw [mapME_congr _ _ ta (fun kd' hkd' => ?_)]
          have hne : kd'.1 ≠ km.1 := by
            have hmem : kd'.1 ∈ tm.map (fun kv => kv.1) := by
              rw [← hkeys']
              exact List.mem_map_of_mem _ hkd'
            rcases List.mem_map.mp hmem with ⟨kv, hkv, hkveq⟩
            have := hlt kv hkv
            omega
          rcases km with ⟨k1, v1⟩
          simp only [alookup, if_neg hne]

/-- A dataframe holding only a one-row entity column. -/
def crossedDf : DataFrame :=
  [⟨entityIdString, .primitive .u64 [1, 0, 0, 0, 0, 0, 0, 0]⟩]

/-- An external world whose dataframe map and metadata map have different
key sets: the dataframe is stored under archetype id 1, the metadata under
archetype id 2. -/
def crossedP : PolarsWorld :=
  { archetypes := [(1, crossedDf)]
    metadata := ⟨[(2, ⟨[], [(7, 0)]⟩)], [], 3, 4⟩, assets := (0 : Nat) }

/-- The world `try_from` silently builds from `crossedP`: archetype 1's
table carries the entity map that the manifest stored under archetype 2. -/
def crossedW : World :=
  { archetypes := [(1,
      ⟨[], ⟨[1, 0, 0, 0, 0, 0, 0, 0], 1, ENTITY_ID_COMPONENT,
        ComponentType.u64, false⟩, [(7, 0)]⟩)]
    component_map := [], assets := (0 : Nat), tick := 3, entity_len := 4 }

/-- C10: `World::try_from` zips the dataframe map positionally against the
manifest's metadata values without checking the key sets: when the key
lists agree, it behaves exactly like the id-keyed pairing (each table gets
its own metadata); when they differ, it succeeds silently and associates a
table with another archetype's metadata (here: archetype 1's table gets
the entity map stored under archetype 2). -/
theorem C10_positional_zip :
    (∀ p : PolarsWorld,
        keysSorted p.metadata.archetypes = true →
        p.archetypes.map (fun kv => kv.1) =
          p.metadata.archetypes.map (fun kv => kv.1) →
        World.tryFrom p = tryFromById p) ∧
    World.tryFrom crossedP = .ok crossedW := by
  constructor
  · intro p hsort hkeys
    rw [World.tryFrom, tryFromById,
      tryFrom_zip_lookup p.archetypes p.metadata.archetypes hsort hkeys]
  · decide

/-- A snapshot whose dataframe and metadata key sets agree. -/
def alignedP : PolarsWorld :=
  { archetypes := [(0, crossedDf)]
    metadata := ⟨[(0, ⟨[], [(7, 0)]⟩)], [], 0, 0⟩, assets := (0 : Nat) }

/-- C10 witness: the equal-key-set part applied to a concrete snapshot. -/
theorem C10_witness :
    keysSorted alignedP.metadata.archetypes = true ∧
      World.tryFrom alignedP = tryFromById alignedP :=
  ⟨by decide, C10_positional_zip.1 alignedP (by decide) (by decide)⟩

end Elodin
